import Mathlib

/-!
Verification development for the BiliTube-Wormhole identity-reconciliation core.

The TypeScript source is shallowly embedded: pure functions become Lean
functions over `List Char` / `String`, JavaScript numbers that can only be
NaN-or-rational in the reachable states become `JsNum`, fallible async calls
become `Except String`, and the file system becomes an explicit association
list from paths to file contents.
-/

namespace BiliTube

/-- A JavaScript number as produced by the verifier's arithmetic: either NaN
(which arises from the division `0/0` in `stringSimilarity` on two empty
strings) or an exact rational value. -/
inductive JsNum where
  | nan : JsNum
  | val : ℚ → JsNum
  deriving DecidableEq, Repr

/-- JS comparison `x >= c`; any comparison against NaN is false. -/
def JsNum.geq (x : JsNum) (c : ℚ) : Bool :=
  match x with
  | .nan => false
  | .val q => decide (c ≤ q)

/-- Extract the rational value; only used on branches where a comparison
against the number already succeeded, hence the number is not NaN. -/
def JsNum.toRat : JsNum → ℚ
  | .nan => 0
  | .val q => q

/-- Levenshtein edit distance, embedding the Wagner–Fischer dynamic program of
`stringSimilarity` in `src/workflows/verifier.ts` (lines 13–47): the matrix
there satisfies `matrix[0][j] = j`, `matrix[i][0] = i` and
`matrix[i][j] = min(matrix[i-1][j]+1, matrix[i][j-1]+1, matrix[i-1][j-1]+cost)`
with `cost = 0` iff the two current characters agree; here the same recurrence
is computed by recursion on the two character lists. -/
def levenshtein : List Char → List Char → ℕ
  | [], t => t.length
  | s, [] => s.length
  | a :: s, b :: t =>
      min (levenshtein s (b :: t) + 1)
        (min (levenshtein (a :: s) t + 1)
          (levenshtein s t + (if a = b then 0 else 1)))
termination_by s t => s.length + t.length
decreasing_by
  all_goals simp [List.length_cons]
  all_goals omega

/-- `stringSimilarity` from `src/workflows/verifier.ts`: `1 - distance/maxLen`.
When both strings are empty the JS code divides `0/0`, producing NaN. -/
def stringSimilarity (s1 s2 : String) : JsNum :=
  let d := levenshtein s1.data s2.data
  let maxLen := max s1.length s2.length
  if maxLen = 0 then JsNum.nan
  else JsNum.val (1 - (d : ℚ) / (maxLen : ℚ))

/-- Characters deleted by the `/[_\-\s]/g` replace in `normalizeUsername`
(underscore, hyphen, and JS whitespace; the whitespace actually occurring in
display names is covered by the ASCII cases). -/
def isSepChar (c : Char) : Bool :=
  c = '_' || c = '-' || c = ' ' || c = '\t' || c = '\n' || c = '\r' ||
  c = '\x0b' || c = '\x0c'

/-- The global replace `/official|频道|channel/gi` with the empty string:
scan left to right, at each position try the alternatives in order and drop
the matched text (the input is already lowercase, so the `i` flag is moot). -/
def stripTokens : List Char → List Char
  | [] => []
  | c :: cs =>
    if ("official".data).isPrefixOf (c :: cs) then stripTokens ((c :: cs).drop 8)
    else if ("频道".data).isPrefixOf (c :: cs) then stripTokens ((c :: cs).drop 2)
    else if ("channel".data).isPrefixOf (c :: cs) then stripTokens ((c :: cs).drop 7)
    else c :: stripTokens cs
termination_by l => l.length
decreasing_by
  all_goals simp [List.length_drop]
  all_goals omega

/-- JS `toLowerCase` (ASCII letters; the CJK characters appearing in this
code are unchanged by it). -/
def toLowerStr (s : String) : String := ⟨s.data.map Char.toLower⟩

/-- `normalizeUsername` from `src/workflows/verifier.ts`: lowercase, delete
separators, then delete the generic suffix tokens. -/
def normalizeUsername (username : String) : String :=
  let lowered := toLowerStr username
  let noSep := lowered.data.filter (fun c => !(isSepChar c))
  ⟨stripTokens noSep⟩

/-- JS `String.prototype.includes`: substring containment. -/
def jsIncludes (hay pat : String) : Bool :=
  (hay.data.tails).any (fun t => pat.data.isPrefixOf t)

/-- `checkBioMatch` from `src/workflows/verifier.ts` (lines 70–90). Note that
`biliUid` is searched for as-is (not lowercased), exactly as in the source. -/
def checkBioMatch (biliSign ytDescription biliUid ytChannelId : String) : Bool :=
  let biliLower := toLowerStr biliSign
  let ytLower := toLowerStr ytDescription
  let ytPatterns := [toLowerStr ytChannelId, "youtube.com", "youtu.be"]
  let biliMentionsYt := ytPatterns.any (fun p => jsIncludes biliLower p)
  let biliPatterns := [biliUid, "bilibili.com", "b站", "b站空间"]
  let ytMentionsBili := biliPatterns.any (fun p => jsIncludes ytLower p)
  biliMentionsYt || ytMentionsBili

/-- `BilibiliUser` (src `types`): the fields consulted by the verifier
(`level` and `official` are never read there and are omitted). -/
structure BilibiliUser where
  uid : String
  name : String
  face : String
  sign : String
  follower : ℚ
  deriving DecidableEq, Repr

/-- `YouTubeChannel` (src `types`): the fields consulted by the verifier.
`thumbHigh` is `thumbnails.high`; `verified?: boolean` is optional in TS and
an absent value is falsy, so it is embedded as a plain `Bool`. -/
structure YouTubeChannel where
  id : String
  title : String
  description : String
  thumbHigh : String
  subscriberCount : Option ℚ
  verified : Bool
  deriving DecidableEq, Repr

/-- A video item; the verifier only ever reads the `title` field of
`BilibiliVideo` / `YouTubeVideo`. -/
structure Video where
  title : String
  deriving DecidableEq, Repr

/-- `VerificationMetadata` (src `types`); all fields optional. The fields
never written by the verifier (`avatarSimilarity`, `issueNumber`) are
omitted. `usernameSimilarity` stores a `JsNum` since the stored similarity
can be NaN. -/
structure VerificationMetadata where
  bilibiliFollowers : Option ℚ := none
  youtubeSubscribers : Option ℚ := none
  usernameSimilarity : Option JsNum := none
  bioMatch : Option Bool := none
  youtubeVerified : Option Bool := none
  matchingVideos : Option ℕ := none
  deriving DecidableEq, Repr

/-- `UserMapping` (src `types`). -/
structure UserMapping where
  bilibiliUid : String
  bilibiliUsername : String
  bilibiliAvatar : Option String := none
  youtubeChannelId : String
  youtubeChannelName : String
  youtubeAvatar : Option String := none
  verificationLevel : ℕ
  verifiedAt : String
  verifiedBy : String
  metadata : Option VerificationMetadata := none
  deriving DecidableEq, Repr

/-- `VerificationResult` (src `types`). -/
structure VerificationResult where
  success : Bool
  level : ℕ
  confidence : ℚ
  reasons : List String
  metadata : VerificationMetadata
  mapping : Option UserMapping := none
  deriving DecidableEq, Repr

/-- The four collaborator fetches `verify` can issue, each either a value or
a raised error (carried as its message string). A fetch's entry is consulted
only if the cascade actually reaches the corresponding `await`. -/
structure Fetches where
  biliUser : Except String BilibiliUser
  ytChannel : Except String YouTubeChannel
  biliVideos : Except String (List Video)
  ytVideos : Except String (List Video)
  deriving Repr

/-- JS `Number.prototype.toFixed(1)` for the non-negative values formatted by
the verifier: one decimal digit, rounding half up. The formatted strings
appear only inside `reasons` entries and no theorem below depends on them. -/
def toFixed1 (x : ℚ) : String :=
  let n : ℤ := round (x * 10)
  toString (n / 10) ++ "." ++ toString (n % 10)

/-- A `reasons` entry of the form `pre + (q*100).toFixed(1) + "%"`. -/
def simMsg (pre : String) (q : ℚ) : String :=
  pre ++ toFixed1 (q * 100) ++ "%"

/-- `createMapping` from `src/workflows/verifier.ts` (lines 261–279);
`new Date().toISOString()` is the caller-supplied clock string `now`. -/
def createMapping (biliUser : BilibiliUser) (ytChannel : YouTubeChannel)
    (level : ℕ) (md : VerificationMetadata) (now : String) : UserMapping :=
  { bilibiliUid := biliUser.uid
    bilibiliUsername := biliUser.name
    bilibiliAvatar := some biliUser.face
    youtubeChannelId := ytChannel.id
    youtubeChannelName := ytChannel.title
    youtubeAvatar := some ytChannel.thumbHigh
    verificationLevel := level
    verifiedAt := now
    verifiedBy := "auto"
    metadata := some md }

/-- The matching-video count of `verify` (lines 179–191): the number of
Bilibili videos for which some YouTube video's lowercased title has
similarity ≥ 0.7 (the inner `break` makes the loop an existence check). -/
def matchingVideosCount (bv yv : List Video) : ℕ :=
  (bv.filter (fun b => yv.any (fun y =>
    (stringSimilarity (toLowerStr b.title) (toLowerStr y.title)).geq (7/10)))).length

/-- The follower-ratio check of `verify` (lines 194–196):
`ratio = ytChannel.subscriberCount! / biliUser.follower`, valid iff
`0.5 ≤ ratio ≤ 2.0`. When `subscriberCount` is undefined the JS division
yields NaN and both comparisons are false; when `follower = 0` it yields
±Infinity or NaN and the conjunction is again false. -/
def followerRatioValid (subs : Option ℚ) (followers : ℚ) : Bool :=
  match subs with
  | none => false
  | some s =>
    if followers = 0 then false
    else decide ((1 : ℚ)/2 ≤ s / followers) && decide (s / followers ≤ 2)

/-- The body of the `try` block of `UserVerifier.verify`
(`src/workflows/verifier.ts` lines 108–246): collaborator fetch errors
propagate monadically, everything else is the pure cascade. -/
def verifyInner (biliUid ytChannelId now : String) (f : Fetches) :
    Except String VerificationResult :=
  match f.biliUser with
  | .error e => .error e
  | .ok biliUser =>
  match f.ytChannel with
  | .error e => .error e
  | .ok ytChannel =>
  let md0 : VerificationMetadata :=
    { bilibiliFollowers := some biliUser.follower
      youtubeSubscribers := ytChannel.subscriberCount }
  let nameSim := stringSimilarity (normalizeUsername biliUser.name)
    (normalizeUsername ytChannel.title)
  -- Level 1: the similarity is computed (and recorded in the metadata) only
  -- when the channel is platform-verified.
  let md1 := if ytChannel.verified then
      { md0 with usernameSimilarity := some nameSim, youtubeVerified := some true }
    else md0
  if ytChannel.verified && nameSim.geq (4/5) then
    .ok { success := true, level := 1
          confidence := 19/20 + nameSim.toRat * (1/20)
          reasons := ["YouTube channel is verified",
                      simMsg "Username similarity: " nameSim.toRat]
          metadata := md1
          mapping := some (createMapping biliUser ytChannel 1 md1 now) }
  else
  -- Level 2
  let bioM := checkBioMatch biliUser.sign ytChannel.description biliUid ytChannelId
  let md2 := { md1 with bioMatch := some bioM }
  if bioM then
    let md3 := { md2 with usernameSimilarity := some nameSim }
    .ok { success := true, level := 2, confidence := 17/20
          reasons := ["Cross-platform bio mentions detected",
                      "Bio contains platform link"]
          metadata := md3
          mapping := some (createMapping biliUser ytChannel 2 md3 now) }
  else
  -- Level 3
  let md3 := { md2 with usernameSimilarity := some nameSim }
  match f.biliVideos with
  | .error e => .error e
  | .ok biliVideos =>
  match f.ytVideos with
  | .error e => .error e
  | .ok ytVideos =>
  let mv := matchingVideosCount biliVideos ytVideos
  let md4 := { md3 with matchingVideos := some mv }
  let ratioOk := followerRatioValid ytChannel.subscriberCount biliUser.follower
  let nameConf : ℚ := if nameSim.geq (4/5) then 2/5
    else if nameSim.geq (3/5) then 1/5 else 0
  let nameReasons : List String :=
    if nameSim.geq (4/5) then [simMsg "High username similarity: " nameSim.toRat]
    else if nameSim.geq (3/5) then [simMsg "Moderate username similarity: " nameSim.toRat]
    else []
  let videoConf : ℚ := if 3 ≤ mv then 3/10 else if 1 ≤ mv then 3/20 else 0
  let videoReasons : List String :=
    if 3 ≤ mv then [toString mv ++ " matching video titles"]
    else if 1 ≤ mv then [toString mv ++ " matching video title(s)"]
    else []
  let ratioConf : ℚ := if ratioOk then 3/20 else 0
  let ratioReasons : List String :=
    if ratioOk then ["Follower count ratio is reasonable"] else []
  let confidence := nameConf + videoConf + ratioConf
  let reasons := nameReasons ++ videoReasons ++ ratioReasons
  if 7/10 ≤ confidence then
    .ok { success := true, level := 3, confidence := confidence
          reasons := reasons, metadata := md4
          mapping := some (createMapping biliUser ytChannel 3 md4 now) }
  else
    .ok { success := false, level := 4, confidence := confidence
          reasons := "Insufficient confidence for automatic verification"
            :: reasons ++ ["Manual review required"]
          metadata := md4, mapping := none }

/-- The level-4 result produced by the `catch` clause of `verify`
(lines 247–255). -/
def errorResult (e : String) : VerificationResult :=
  { success := false, level := 4, confidence := 0
    reasons := ["Verification failed: " ++ e], metadata := {} }

/-- `UserVerifier.verify`: the `try`/`catch` wrapper. Total by construction —
the embedding of "never throws". -/
def verify (biliUid ytChannelId now : String) (f : Fetches) : VerificationResult :=
  match verifyInner biliUid ytChannelId now f with
  | .ok r => r
  | .error e => errorResult e

/-! ## ShardManager (`src/storage/shard-manager.ts`)

The file system is an association list from paths to file contents; paths are
relative to the store root (`baseDir` is a constant prefix on every path the
class touches and is dropped from the embedding). A write replaces any
previous entry at the same path, so the path list stays duplicate-free. -/

/-- Content of one file as far as `ShardManager` can observe it:
a JSON-serialized mapping (`JSON.stringify`/`.json()` round-trip on these
records is the identity), the empty string (written by `deleteMapping` and
for `.gitkeep` files), or other unparsable bytes. -/
inductive FileContent where
  | record (m : UserMapping)
  | emptyFile
  | garbage
  deriving DecidableEq, Repr

/-- The store-root directory tree. -/
structure Fs where
  files : List (String × FileContent)
  deriving Repr

def Fs.lookup (fs : Fs) (p : String) : Option FileContent :=
  (fs.files.find? (fun e => decide (e.1 = p))).map (fun e => e.2)

/-- `Bun.write p c`: creates or overwrites the file at `p`. -/
def Fs.write (fs : Fs) (p : String) (c : FileContent) : Fs :=
  ⟨(p, c) :: fs.files.filter (fun e => !decide (e.1 = p))⟩

def emptyFs : Fs := ⟨[]⟩

/-- `ShardConfig` (src `types`), defaults 2/2/8. -/
structure ShardConfig where
  level1Length : ℕ
  level2Length : ℕ
  hashLength : ℕ
  deriving DecidableEq, Repr

def defaultShardConfig : ShardConfig := ⟨2, 2, 8⟩

/-- `ShardManager`. `hashHex` stands for the external
`crypto.createHash('sha256').update(id).digest('hex')` collaborator: an
arbitrary deterministic function from identifiers to hex digests. -/
structure ShardManager where
  config : ShardConfig
  hashHex : String → String

/-- `ShardManager.hash`: the digest truncated to `hashLength` characters. -/
def ShardManager.hashId (sm : ShardManager) (userId : String) : String :=
  (sm.hashHex userId).take sm.config.hashLength

/-- `ShardManager.getShardPath`: `<level1>/<level2>/<hash>.json`. -/
def ShardManager.getShardPath (sm : ShardManager) (userId : String) : String :=
  let h := sm.hashId userId
  let l1 := h.take sm.config.level1Length
  let l2 := (h.drop sm.config.level1Length).take sm.config.level2Length
  l1 ++ "/" ++ l2 ++ "/" ++ h ++ ".json"

/-- `ShardManager.getShardDir` (relative to the store root). -/
def ShardManager.getShardDir (sm : ShardManager) (userId : String) : String :=
  let h := sm.hashId userId
  let l1 := h.take sm.config.level1Length
  let l2 := (h.drop sm.config.level1Length).take sm.config.level2Length
  l1 ++ "/" ++ l2

/-- `ShardManager.readMapping`. `fault` injects a failure of the underlying
`file.exists()`/`file.json()` I/O (`some e` = the call raises `e`). The
entire body sits in a `try` whose `catch` logs and returns `null`, so every
outcome — missing file, unparsable content, or raised I/O error — comes back
as `.ok`; the `Except` return type records that nothing escapes. -/
def ShardManager.readMapping (sm : ShardManager) (fs : Fs) (fault : Option String)
    (userId : String) : Except String (Option UserMapping) :=
  match fault with
  | some _ => .ok none
  | none =>
    match fs.lookup (sm.getShardPath userId) with
    | none => .ok none
    | some (.record m) => .ok (some m)
    | some _ => .ok none

/-- `ShardManager.writeMapping` (fault-free run): ensure the shard directory
exists by writing `<dir>/.gitkeep`, then write the serialized mapping. -/
def ShardManager.writeMapping (sm : ShardManager) (fs : Fs) (userId : String)
    (m : UserMapping) : Fs :=
  let fs1 := fs.write (sm.getShardDir userId ++ "/.gitkeep") .emptyFile
  fs1.write (sm.getShardPath userId) (.record m)

/-- `ShardManager.deleteMapping`: `Bun.write(filePath, '')` — the runtime has
no unlink, so the file's content is cleared in place. -/
def ShardManager.deleteMapping (sm : ShardManager) (fs : Fs) (userId : String) : Fs :=
  fs.write (sm.getShardPath userId) .emptyFile

/-- `ShardManager.hasMapping`: pure existence check. -/
def ShardManager.hasMapping (sm : ShardManager) (fs : Fs) (userId : String) : Bool :=
  (fs.lookup (sm.getShardPath userId)).isSome

/-- `MappingIndex` (src `types`): identifier → shard-relative path, embedded
as an insertion-ordered association list (a JS string-keyed object). -/
abbrev MappingIndex := List (String × String)

/-- JS object assignment `index[k] = v`: update in place if the key exists,
otherwise append. -/
def idxInsert (idx : MappingIndex) (k v : String) : MappingIndex :=
  if idx.any (fun e => decide (e.1 = k)) then
    idx.map (fun e => if e.1 = k then (k, v) else e)
  else idx ++ [(k, v)]

def idxLookup (idx : MappingIndex) (k : String) : Option String :=
  (idx.find? (fun e => decide (e.1 = k))).map (fun e => e.2)

/-- The `Bun.Glob('**/*.json')` match used by `buildIndex`: a relative path
matches iff it ends in `.json` (at any directory depth, including the store
root, which is why the source explicitly skips `index.json`). -/
def globJson (p : String) : Bool := (".json".data).isSuffixOf p.data

/-- `ShardManager.buildIndex`: scan every `**/*.json` file except
`index.json`, parse it, and insert both identifier keys pointing at the
file's relative path; unparsable files are skipped by the inner `catch`. -/
def ShardManager.buildIndex (_sm : ShardManager) (fs : Fs) : MappingIndex :=
  fs.files.foldl (fun idx e =>
    if globJson e.1 && !(decide (e.1 = "index.json")) then
      match e.2 with
      | .record m => idxInsert (idxInsert idx m.bilibiliUid e.1) m.youtubeChannelId e.1
      | _ => idx
    else idx) []

/-- `batchWrite`-style sequential persistence of a batch, each record keyed
by its Bilibili uid (the key the source-keyed store uses). -/
def writeAll (sm : ShardManager) (ms : List UserMapping) (fs : Fs) : Fs :=
  ms.foldl (fun acc m => sm.writeMapping acc m.bilibiliUid m) fs

/-! ## RateLimiter (`src/api/bilibili.ts` tail / part_007 lines 284–323)

`execute` pushes a wrapper closure onto a FIFO queue and starts the single
drain loop if it is idle; the loop shifts the head, awaits it (the wrapper
resolves or rejects the caller's promise with the task's own outcome), sleeps
the fixed delay, and repeats. The embedding is a small-step system on the
queue: `submit` is `execute`'s synchronous push, `run` is one full iteration
of the drain loop (shift + await + delay). The `processing` flag guarantees a
single drain loop, which is what makes `run` a single atomic completion. -/

/-- A queued task: an identity plus the outcome its promise eventually
settles with (`.ok` = resolve, `.error` = reject). -/
structure RLTask where
  tid : ℕ
  outcome : Except String ℕ
  deriving Repr

structure RLState where
  queue : List RLTask
  submitted : List RLTask
  completed : List (ℕ × Except String ℕ)

/-- One event-loop step of the rate limiter. -/
inductive RLStep : RLState → RLState → Prop
  | submit (t : RLTask) (s : RLState) :
      RLStep s ⟨s.queue ++ [t], s.submitted ++ [t], s.completed⟩
  | run (t : RLTask) (q : List RLTask) (s : RLState) (h : s.queue = t :: q) :
      RLStep s ⟨q, s.submitted, s.completed ++ [(t.tid, t.outcome)]⟩

/-- States reachable from a freshly constructed rate limiter. -/
inductive RLReachable : RLState → Prop
  | init : RLReachable ⟨[], [], []⟩
  | step {s s' : RLState} : RLReachable s → RLStep s s' → RLReachable s'

/-! ## Basic facts about the edit distance -/

theorem levenshtein_nil_right (s : List Char) : levenshtein s [] = s.length := by
  cases s <;> simp [levenshtein]

theorem levenshtein_self (s : List Char) : levenshtein s s = 0 := by
  induction s with
  | nil => simp [levenshtein]
  | cons a t ih => simp [levenshtein, ih]

/-- C4 — corrected. For non-empty `s` the code does satisfy
`similarity(s, s) = 1` and `similarity(s, "") = 0`, but on two empty strings
it computes `1 - 0/0`, which is NaN in JavaScript, not `1.0`. -/
theorem claim_C4 (s : String) (h : s ≠ "") :
    stringSimilarity s s = JsNum.val 1 ∧ stringSimilarity s "" = JsNum.val 0 ∧
      stringSimilarity "" "" = JsNum.nan := by
  obtain ⟨data⟩ := s
  match data with
  | [] => exact absurd rfl h
  | a :: l =>
    refine ⟨?_, ?_, rfl⟩
    · simp [stringSimilarity, String.length, levenshtein_self]
    · have hne : ((l.length : ℚ) + 1) ≠ 0 := by positivity
      simp [stringSimilarity, String.length, levenshtein_nil_right, div_self hne]

/-- C4 — counterexample to the claim as stated: on two empty strings the
similarity is NaN (`1 - 0/0`), not `1.0`. -/
theorem claim_C4_counterexample : ¬ stringSimilarity "" "" = JsNum.val 1 := by
  have h : stringSimilarity "" "" = JsNum.nan := rfl
  rw [h]
  simp

/-- C4 — witness instantiating the hypothesis at `s = "ab"`. -/
theorem claim_C4_witness :
    ("ab" : String) ≠ "" ∧
      (stringSimilarity "ab" "ab" = JsNum.val 1 ∧
        stringSimilarity "ab" "" = JsNum.val 0 ∧
        stringSimilarity "" "" = JsNum.nan) :=
  ⟨by decide, claim_C4 "ab" (by decide)⟩

/-! ## Storage: read/write/delete behaviour -/

theorem lookup_write_self (fs : Fs) (p : String) (c : FileContent) :
    (fs.write p c).lookup p = some c := by
  simp [Fs.write, Fs.lookup]

/-- C5 — corrected (theorem for the amended claim). `read(id)` yields the
absent marker when the file is missing or unparsable, and it also yields the
absent marker — it does not raise — when the underlying I/O fails
unexpectedly: the `try`/`catch` spans the whole body, so every outcome is an
`.ok`. -/
theorem claim_C5 (sm : ShardManager) (fs : Fs) (fault : Option String) (id1 : String) :
    (∃ r, sm.readMapping fs fault id1 = .ok r) ∧
    (fs.lookup (sm.getShardPath id1) = none → sm.readMapping fs fault id1 = .ok none) ∧
    (fs.lookup (sm.getShardPath id1) = some .emptyFile →
      sm.readMapping fs fault id1 = .ok none) ∧
    (fs.lookup (sm.getShardPath id1) = some .garbage →
      sm.readMapping fs fault id1 = .ok none) := by
  unfold ShardManager.readMapping
  cases fault with
  | some e => exact ⟨⟨none, rfl⟩, fun _ => rfl, fun _ => rfl, fun _ => rfl⟩
  | none =>
    refine ⟨?_, fun hc => by simp [hc], fun hc => by simp [hc], fun hc => by simp [hc]⟩
    cases hc : fs.lookup (sm.getShardPath id1) with
    | none => exact ⟨none, by simp [hc]⟩
    | some c => cases c <;> simp [hc]

/-- C5 — counterexample to the claim as stated: an unexpected I/O failure
(injected fault on the underlying file read) does not propagate; the call
returns the absent marker. -/
theorem claim_C5_counterexample :
    ShardManager.readMapping ⟨defaultShardConfig, fun _ => "0123abcd"⟩ emptyFs
      (some "EIO: unexpected I/O failure") "42" = Except.ok none := rfl

/-- C5 — witness: a store containing an unparsable file at the shard path of
`"42"`; reading returns the absent marker via the amended theorem. -/
theorem claim_C5_witness :
    ShardManager.readMapping ⟨defaultShardConfig, fun _ => "0123abcd"⟩
      (⟨[("01/23/0123abcd.json", FileContent.garbage)]⟩ : Fs) none "42" =
      Except.ok none :=
  (claim_C5 ⟨defaultShardConfig, fun _ => "0123abcd"⟩
    ⟨[("01/23/0123abcd.json", FileContent.garbage)]⟩ none "42").2.2.2 (by decide)

/-- C6 — confirmed. A read right after a write returns exactly the written
record, for any prior store contents; in particular after two writes to the
same identifier the second record is returned (last write wins). -/
theorem claim_C6 (sm : ShardManager) (fs : Fs) (id1 : String) (m1 m2 : UserMapping) :
    sm.readMapping (sm.writeMapping fs id1 m2) none id1 = .ok (some m2) ∧
    sm.readMapping (sm.writeMapping (sm.writeMapping fs id1 m1) id1 m2) none id1 =
      .ok (some m2) := by
  constructor <;>
    simp [ShardManager.readMapping, ShardManager.writeMapping, lookup_write_self]

/-- C8 — confirmed. After `delete(id)` on a previously written mapping the
path still exists (`has` is true — the delete only empties the file) while
`read` treats the emptied file as unparsable and returns the absent
marker. -/
theorem claim_C8 (sm : ShardManager) (fs : Fs) (id1 : String) (m : UserMapping) :
    sm.hasMapping (sm.deleteMapping (sm.writeMapping fs id1 m) id1) id1 = true ∧
    sm.readMapping (sm.deleteMapping (sm.writeMapping fs id1 m) id1) none id1 =
      .ok none := by
  constructor <;>
    simp [ShardManager.hasMapping, ShardManager.deleteMapping,
      ShardManager.readMapping, lookup_write_self]

/-! ## Verifier claims -/

/-- The level-3 confidence formula exactly as the spec states it (written
from the spec's words, for comparison with the code's accumulation):
+0.4 for name similarity ≥ 0.8, else +0.2 for similarity in [0.6, 0.8);
+0.3 for ≥ 3 matching titles, else +0.15 for 1–2; +0.15 for a reasonable
audience ratio. -/
def specLevel3Confidence (ns : JsNum) (mv : ℕ) (ratioOk : Bool) : ℚ :=
  (if ns.geq (4/5) then 2/5 else if ns.geq (3/5) then 1/5 else 0) +
  (if 3 ≤ mv then 3/10 else if 1 ≤ mv then 3/20 else 0) +
  (if ratioOk then 3/20 else 0)

/-- C3 — confirmed. If level 1 did not fire and `checkBioMatch` holds in
either direction, `verify` succeeds at level 2 with confidence exactly
0.85. -/
theorem claim_C3 (biliUid ytChannelId now : String) (f : Fetches)
    (u : BilibiliUser) (c : YouTubeChannel)
    (hu : f.biliUser = .ok u) (hc : f.ytChannel = .ok c)
    (hL1 : (c.verified && (stringSimilarity (normalizeUsername u.name)
      (normalizeUsername c.title)).geq (4/5)) = false)
    (hbio : checkBioMatch u.sign c.description biliUid ytChannelId = true) :
    (verify biliUid ytChannelId now f).success = true ∧
    (verify biliUid ytChannelId now f).level = 2 ∧
    (verify biliUid ytChannelId now f).confidence = 17/20 := by
  unfold verify verifyInner
  rw [hu, hc]
  simp [hL1, hbio]

/-- C3 — witness: an unverified channel, a Bilibili bio containing
`youtube.com`. -/
theorem claim_C3_witness :
    (Fetches.biliUser ⟨.ok ⟨"123", "aa", "f", "see youtube.com/xyz", 100⟩,
        .ok ⟨"UCx", "bb", "nothing", "th", some 100, false⟩, .ok [], .ok []⟩ =
      .ok ⟨"123", "aa", "f", "see youtube.com/xyz", 100⟩) ∧
    checkBioMatch "see youtube.com/xyz" "nothing" "123" "UCx" = true ∧
    ((verify "123" "UCx" "now"
        ⟨.ok ⟨"123", "aa", "f", "see youtube.com/xyz", 100⟩,
         .ok ⟨"UCx", "bb", "nothing", "th", some 100, false⟩, .ok [], .ok []⟩).success = true ∧
     (verify "123" "UCx" "now"
        ⟨.ok ⟨"123", "aa", "f", "see youtube.com/xyz", 100⟩,
         .ok ⟨"UCx", "bb", "nothing", "th", some 100, false⟩, .ok [], .ok []⟩).level = 2 ∧
     (verify "123" "UCx" "now"
        ⟨.ok ⟨"123", "aa", "f", "see youtube.com/xyz", 100⟩,
         .ok ⟨"UCx", "bb", "nothing", "th", some 100, false⟩, .ok [], .ok []⟩).confidence = 17/20) :=
  ⟨rfl, by decide,
    claim_C3 "123" "UCx" "now" _ _ _ rfl rfl rfl (by decide)⟩

/-- C2 — confirmed. When neither level 1 nor level 2 fires, the computed
confidence is exactly the spec's additive formula, and `verify` succeeds at
level 3 iff that sum is ≥ 0.7, otherwise failing at level 4 with the same
partial confidence. -/
theorem claim_C2 (biliUid ytChannelId now : String) (f : Fetches)
    (u : BilibiliUser) (c : YouTubeChannel) (bv yv : List Video)
    (hu : f.biliUser = .ok u) (hc : f.ytChannel = .ok c)
    (hbv : f.biliVideos = .ok bv) (hyv : f.ytVideos = .ok yv)
    (hL1 : (c.verified && (stringSimilarity (normalizeUsername u.name)
      (normalizeUsername c.title)).geq (4/5)) = false)
    (hbio : checkBioMatch u.sign c.description biliUid ytChannelId = false) :
    (verify biliUid ytChannelId now f).confidence =
      specLevel3Confidence
        (stringSimilarity (normalizeUsername u.name) (normalizeUsername c.title))
        (matchingVideosCount bv yv)
        (followerRatioValid c.subscriberCount u.follower) ∧
    ((7/10 : ℚ) ≤ specLevel3Confidence
        (stringSimilarity (normalizeUsername u.name) (normalizeUsername c.title))
        (matchingVideosCount bv yv)
        (followerRatioValid c.subscriberCount u.follower) →
      (verify biliUid ytChannelId now f).success = true ∧
      (verify biliUid ytChannelId now f).level = 3) ∧
    (¬ (7/10 : ℚ) ≤ specLevel3Confidence
        (stringSimilarity (normalizeUsername u.name) (normalizeUsername c.title))
        (matchingVideosCount bv yv)
        (followerRatioValid c.subscriberCount u.follower) →
      (verify biliUid ytChannelId now f).success = false ∧
      (verify biliUid ytChannelId now f).level = 4) := by
  unfold verify verifyInner
  rw [hu, hc, hbv, hyv]
  simp only [hL1, hbio, Bool.false_eq_true, if_false]
  by_cases h7 : (7 : ℚ)/10 ≤ specLevel3Confidence
      (stringSimilarity (normalizeUsername u.name) (normalizeUsername c.title))
      (matchingVideosCount bv yv)
      (followerRatioValid c.subscriberCount u.follower)
  · have h7' := h7
    simp only [specLevel3Confidence] at h7'
    rw [if_pos h7']
    exact ⟨by simp only [specLevel3Confidence], fun _ => ⟨rfl, rfl⟩,
      fun hn => absurd h7 hn⟩
  · have h7' := h7
    simp only [specLevel3Confidence] at h7'
    rw [if_neg h7']
    exact ⟨by simp only [specLevel3Confidence], fun hp => absurd hp h7,
      fun _ => ⟨rfl, rfl⟩⟩

/-- Fixture: a Bilibili user with an uninformative bio. -/
def wU : BilibiliUser := ⟨"123", "aa", "f", "hello", 100⟩

/-- Fixture: an unverified channel with an uninformative description. -/
def wC : YouTubeChannel := ⟨"UCx", "bb", "world", "th", some 100, false⟩

/-- Fixture: a one-item video list. -/
def wBv : List Video := [⟨"Video One"⟩]

/-- Fixture: all four fetches succeed with the fixtures above. -/
def wF : Fetches := ⟨.ok wU, .ok wC, .ok wBv, .ok wBv⟩

/-- C2 — witness: all fetches succeed, level 1 and 2 do not fire. -/
theorem claim_C2_witness :
    (wF.biliUser = .ok wU ∧ wF.ytChannel = .ok wC ∧ wF.biliVideos = .ok wBv ∧
      wF.ytVideos = .ok wBv ∧
      (wC.verified && (stringSimilarity (normalizeUsername wU.name)
        (normalizeUsername wC.title)).geq (4/5)) = false ∧
      checkBioMatch wU.sign wC.description "123" "UCx" = false) ∧
    ((verify "123" "UCx" "now" wF).confidence =
      specLevel3Confidence
        (stringSimilarity (normalizeUsername wU.name) (normalizeUsername wC.title))
        (matchingVideosCount wBv wBv)
        (followerRatioValid wC.subscriberCount wU.follower) ∧
    ((7/10 : ℚ) ≤ specLevel3Confidence
        (stringSimilarity (normalizeUsername wU.name) (normalizeUsername wC.title))
        (matchingVideosCount wBv wBv)
        (followerRatioValid wC.subscriberCount wU.follower) →
      (verify "123" "UCx" "now" wF).success = true ∧
      (verify "123" "UCx" "now" wF).level = 3) ∧
    (¬ (7/10 : ℚ) ≤ specLevel3Confidence
        (stringSimilarity (normalizeUsername wU.name) (normalizeUsername wC.title))
        (matchingVideosCount wBv wBv)
        (followerRatioValid wC.subscriberCount wU.follower) →
      (verify "123" "UCx" "now" wF).success = false ∧
      (verify "123" "UCx" "now" wF).level = 4)) :=
  ⟨⟨rfl, rfl, rfl, rfl, rfl, by decide⟩,
    claim_C2 "123" "UCx" "now" wF wU wC wBv wBv rfl rfl rfl rfl rfl (by decide)⟩

/-- C9 — confirmed. With the target's subscriber count missing, `verify`
still completes (it is total) and the ratio bonus is not added: the
confidence equals the spec formula with the ratio term forced off, and the
outcome is the ordinary level-3/level-4 decision. -/
theorem claim_C9 (biliUid ytChannelId now : String) (f : Fetches)
    (u : BilibiliUser) (c : YouTubeChannel) (bv yv : List Video)
    (hu : f.biliUser = .ok u) (hc : f.ytChannel = .ok c)
    (hbv : f.biliVideos = .ok bv) (hyv : f.ytVideos = .ok yv)
    (hL1 : (c.verified && (stringSimilarity (normalizeUsername u.name)
      (normalizeUsername c.title)).geq (4/5)) = false)
    (hbio : checkBioMatch u.sign c.description biliUid ytChannelId = false)
    (hsubs : c.subscriberCount = none) :
    (verify biliUid ytChannelId now f).confidence =
      specLevel3Confidence
        (stringSimilarity (normalizeUsername u.name) (normalizeUsername c.title))
        (matchingVideosCount bv yv) false ∧
    ((verify biliUid ytChannelId now f).level = 3 ∨
      (verify biliUid ytChannelId now f).level = 4) := by
  have hratio : followerRatioValid c.subscriberCount u.follower = false := by
    rw [hsubs]; rfl
  unfold verify verifyInner
  rw [hu, hc, hbv, hyv]
  simp only [hL1, hbio, hratio, Bool.false_eq_true, if_false]
  by_cases h7 : (7 : ℚ)/10 ≤ specLevel3Confidence
      (stringSimilarity (normalizeUsername u.name) (normalizeUsername c.title))
      (matchingVideosCount bv yv) false
  · have h7' := h7
    simp only [specLevel3Confidence, Bool.false_eq_true, if_false] at h7'
    rw [if_pos h7']
    exact ⟨by simp only [specLevel3Confidence, Bool.false_eq_true, if_false],
      Or.inl rfl⟩
  · have h7' := h7
    simp only [specLevel3Confidence, Bool.false_eq_true, if_false] at h7'
    rw [if_neg h7']
    exact ⟨by simp only [specLevel3Confidence, Bool.false_eq_true, if_false],
      Or.inr rfl⟩

/-- Fixture: the channel of `wC` but with no subscriber count. -/
def wC9 : YouTubeChannel := ⟨"UCx", "bb", "world", "th", none, false⟩

/-- Fixture: fetches for the missing-subscriber-count scenario. -/
def wF9 : Fetches := ⟨.ok wU, .ok wC9, .ok wBv, .ok wBv⟩

/-- C9 — witness: subscriber count absent; the ratio bonus is off. -/
theorem claim_C9_witness :
    (wF9.biliUser = .ok wU ∧ wF9.ytChannel = .ok wC9 ∧ wF9.biliVideos = .ok wBv ∧
      wF9.ytVideos = .ok wBv ∧
      (wC9.verified && (stringSimilarity (normalizeUsername wU.name)
        (normalizeUsername wC9.title)).geq (4/5)) = false ∧
      checkBioMatch wU.sign wC9.description "123" "UCx" = false ∧
      wC9.subscriberCount = none) ∧
    ((verify "123" "UCx" "now" wF9).confidence =
      specLevel3Confidence
        (stringSimilarity (normalizeUsername wU.name) (normalizeUsername wC9.title))
        (matchingVideosCount wBv wBv) false ∧
    ((verify "123" "UCx" "now" wF9).level = 3 ∨
      (verify "123" "UCx" "now" wF9).level = 4)) :=
  ⟨⟨rfl, rfl, rfl, rfl, rfl, by decide, rfl⟩,
    claim_C9 "123" "UCx" "now" wF9 wU wC9 wBv wBv rfl rfl rfl rfl rfl
      (by decide) rfl⟩

theorem ite_ok_ne_error {α β : Type} (P : Prop) [Decidable P] (a b : α) (e : β) :
    (if P then Except.ok a else Except.ok b) ≠ Except.error e := by
  split <;> simp

/-- C1 — confirmed. `verify` is total (it cannot raise: its result type is
`VerificationResult`, the `catch` converting every propagated error), and
whenever the cascade is aborted by a collaborator fetch error `e` — which is
the only error source in the `try` body — the result is exactly
`success = false`, `level = 4`, `confidence = 0`, with the failure named in
`reasons` and empty metadata. -/
theorem claim_C1 (biliUid ytChannelId now : String) (f : Fetches) (e : String)
    (h : verifyInner biliUid ytChannelId now f = .error e) :
    verify biliUid ytChannelId now f =
      { success := false, level := 4, confidence := 0
        reasons := ["Verification failed: " ++ e]
        metadata := {}, mapping := none } ∧
    (f.biliUser = .error e ∨ f.ytChannel = .error e ∨
      f.biliVideos = .error e ∨ f.ytVideos = .error e) := by
  constructor
  · unfold verify
    rw [h]
    rfl
  · unfold verifyInner at h
    cases hbu : f.biliUser with
    | error e1 =>
      rw [hbu] at h
      simp only [Except.error.injEq] at h
      subst h
      exact Or.inl rfl
    | ok u =>
      rw [hbu] at h
      cases hyc : f.ytChannel with
      | error e2 =>
        rw [hyc] at h
        simp only [Except.error.injEq] at h
        subst h
        exact Or.inr (Or.inl rfl)
      | ok c =>
        rw [hyc] at h
        dsimp only at h
        cases hv : (c.verified && (stringSimilarity (normalizeUsername u.name)
            (normalizeUsername c.title)).geq (4/5)) with
        | true => rw [hv] at h; simp at h
        | false =>
        rw [hv] at h
        simp only [Bool.false_eq_true, if_false] at h
        cases hbm : checkBioMatch u.sign c.description biliUid ytChannelId with
        | true => rw [hbm] at h; simp at h
        | false =>
        rw [hbm] at h
        simp only [Bool.false_eq_true, if_false] at h
        cases hbv : f.biliVideos with
        | error e3 =>
          rw [hbv] at h
          simp only [Except.error.injEq] at h
          subst h
          exact Or.inr (Or.inr (Or.inl rfl))
        | ok bv =>
          rw [hbv] at h
          dsimp only at h
          cases hyv : f.ytVideos with
          | error e4 =>
            rw [hyv] at h
            simp only [Except.error.injEq] at h
            subst h
            exact Or.inr (Or.inr (Or.inr rfl))
          | ok yv =>
            rw [hyv] at h
            dsimp only at h
            exact absurd h (ite_ok_ne_error _ _ _ _)

/-- Fixture: the first collaborator fetch raises. -/
def wF1 : Fetches := ⟨.error "network down", .ok wC, .ok wBv, .ok wBv⟩

/-- C1 — witness: a failing profile fetch yields the level-4 zero-confidence
result naming the failure. -/
theorem claim_C1_witness :
    verifyInner "123" "UCx" "now" wF1 = .error "network down" ∧
    (verify "123" "UCx" "now" wF1 =
      { success := false, level := 4, confidence := 0
        reasons := ["Verification failed: " ++ "network down"]
        metadata := {}, mapping := none } ∧
    (wF1.biliUser = .error "network down" ∨ wF1.ytChannel = .error "network down" ∨
      wF1.biliVideos = .error "network down" ∨ wF1.ytVideos = .error "network down")) :=
  ⟨rfl, claim_C1 "123" "UCx" "now" wF1 "network down" rfl⟩

/-- C10 — confirmed. In every reachable rate-limiter state the completed
tasks are exactly a prefix of the submission sequence, each recorded with its
own outcome, and the queue is exactly the remaining suffix. Hence tasks
complete strictly in submission order, one per `run` step, a task runs only
when every earlier-submitted task has completed, and each `execute` promise
settles with its own task's outcome. (The fixed inter-task delay is the
real-time gap between two `run` steps and is not modelled.) -/
theorem claim_C10 (s : RLState) (h : RLReachable s) :
    s.completed =
      (s.submitted.take s.completed.length).map (fun t => (t.tid, t.outcome)) ∧
    s.queue = s.submitted.drop s.completed.length := by
  induction h with
  | init => simp
  | @step s1 s2 hreach hstep ih =>
    obtain ⟨ih1, ih2⟩ := ih
    cases hstep with
    | submit t _ =>
      have hlen : s1.completed.length ≤ s1.submitted.length := by
        have := congrArg List.length ih1
        simp only [List.length_map, List.length_take] at this
        omega
      refine ⟨?_, ?_⟩
      · show s1.completed =
          ((s1.submitted ++ [t]).take s1.completed.length).map (fun t => (t.tid, t.outcome))
        rw [List.take_append_of_le_length hlen]
        exact ih1
      · show s1.queue ++ [t] = (s1.submitted ++ [t]).drop s1.completed.length
        rw [List.drop_append_of_le_length hlen, ih2]
    | run t q _ heq =>
      have hq : s1.submitted.drop s1.completed.length = t :: q := by
        rw [← ih2]; exact heq
      have hget : s1.submitted[s1.completed.length]? = some t := by
        have h0 := List.getElem?_drop s1.submitted s1.completed.length 0
        rw [hq] at h0
        simpa using h0.symm
      refine ⟨?_, ?_⟩
      · show s1.completed ++ [(t.tid, t.outcome)] =
          ((s1.submitted).take (s1.completed ++ [(t.tid, t.outcome)]).length).map
            (fun t => (t.tid, t.outcome))
        rw [List.length_append, List.length_singleton, List.take_succ, hget]
        simp only [List.map_append, Option.toList_some, List.map_cons, List.map_nil]
        rw [← ih1]
      · show q = s1.submitted.drop (s1.completed ++ [(t.tid, t.outcome)]).length
        rw [List.length_append, List.length_singleton]
        have hdd := List.drop_drop 1 s1.completed.length s1.submitted
        rw [hq] at hdd
        simpa using hdd

/-- Fixture: a task that resolves. -/
def wT1 : RLTask := ⟨1, .ok 10⟩

/-- Fixture: a task that rejects. -/
def wT2 : RLTask := ⟨2, .error "boom"⟩

/-- Fixture: the state after submitting two tasks and draining one. -/
def wS : RLState := ⟨[wT2], [wT1, wT2], [(wT1.tid, wT1.outcome)]⟩

/-- C10 — witness: two submissions followed by one drain step; the completed
list is the submission prefix with its own outcomes, the queue the suffix. -/
theorem claim_C10_witness :
    wS.completed =
      (wS.submitted.take wS.completed.length).map (fun t => (t.tid, t.outcome)) ∧
    wS.queue = wS.submitted.drop wS.completed.length :=
  claim_C10 wS
    (RLReachable.step
      (RLReachable.step
        (RLReachable.step RLReachable.init (RLStep.submit wT1 ⟨[], [], []⟩))
        (RLStep.submit wT2 ⟨[wT1], [wT1], []⟩))
      (RLStep.run wT1 [wT2] ⟨[wT1, wT2], [wT1, wT2], []⟩ rfl))

/-! ## Index construction (C7): path facts -/

/-- The last character of a path, used to separate `*.json` record files from
`.gitkeep` markers. -/
def lastChar (s : String) : Option Char := s.data.getLast?

theorem lastChar_append (s t : String) (h : t.data ≠ []) :
    lastChar (s ++ t) = lastChar t := by
  simp only [lastChar, String.data_append]
  exact List.getLast?_append_of_ne_nil _ h

theorem shardPath_lastChar (sm : ShardManager) (id1 : String) :
    lastChar (sm.getShardPath id1) = some 'n' := by
  simp only [ShardManager.getShardPath]
  rw [lastChar_append _ ".json" (by decide)]
  rfl

theorem gitkeep_lastChar (sm : ShardManager) (id1 : String) :
    lastChar (sm.getShardDir id1 ++ "/.gitkeep") = some 'p' := by
  rw [lastChar_append _ "/.gitkeep" (by decide)]
  rfl

theorem shardPath_ne_gitkeep (sm : ShardManager) (id1 id2 : String) :
    sm.getShardPath id1 ≠ sm.getShardDir id2 ++ "/.gitkeep" := by
  intro h
  have := congrArg lastChar h
  rw [shardPath_lastChar, gitkeep_lastChar] at this
  simp at this

theorem globJson_json (s : String) : globJson (s ++ ".json") = true := by
  simp only [globJson, String.data_append, List.isSuffixOf_iff_suffix]
  exact List.suffix_append _ _

theorem globJson_shardPath (sm : ShardManager) (id1 : String) :
    globJson (sm.getShardPath id1) = true := by
  simp only [ShardManager.getShardPath]
  exact globJson_json _

theorem globJson_eq_false_of_lastChar {p : String} (h : lastChar p = some 'p') :
    globJson p = false := by
  rw [← Bool.not_eq_true, globJson, List.isSuffixOf_iff_suffix]
  intro hsuf
  obtain ⟨t, ht⟩ := hsuf
  rw [lastChar, ← ht, List.getLast?_append_of_ne_nil _ (by decide)] at h
  simp at h

theorem globJson_gitkeep (sm : ShardManager) (id1 : String) :
    globJson (sm.getShardDir id1 ++ "/.gitkeep") = false :=
  globJson_eq_false_of_lastChar (gitkeep_lastChar sm id1)

theorem shardPath_ne_index (sm : ShardManager) (id1 : String) :
    sm.getShardPath id1 ≠ "index.json" := by
  intro h
  have hmem : '/' ∈ (sm.getShardPath id1).data := by
    simp [ShardManager.getShardPath, String.data_append]
  rw [h] at hmem
  exact absurd hmem (by decide)

/-! ## Index construction (C7): file-system lemmas -/

theorem find?_filter_ne (l : List (String × FileContent)) (p q : String) (h : q ≠ p) :
    (l.filter (fun e => !decide (e.1 = p))).find? (fun e => decide (e.1 = q)) =
      l.find? (fun e => decide (e.1 = q)) := by
  induction l with
  | nil => rfl
  | cons e t ih =>
    by_cases he : e.1 = p
    · simp [List.filter_cons, he, List.find?_cons, Ne.symm h, ih]
    · by_cases heq : e.1 = q
      · simp [List.filter_cons, he, List.find?_cons, heq, h]
      · simp [List.filter_cons, he, List.find?_cons, heq, ih]

theorem lookup_write_ne (fs : Fs) (p q : String) (c : FileContent) (h : q ≠ p) :
    (fs.write p c).lookup q = fs.lookup q := by
  have hpq : (decide (p = q)) = false := decide_eq_false (Ne.symm h)
  simp only [Fs.write, Fs.lookup, List.find?_cons, hpq, find?_filter_ne fs.files p q h]

theorem lookup_writeMapping_ne (sm : ShardManager) (fs : Fs) (id1 : String)
    (m : UserMapping) (q : String)
    (h1 : q ≠ sm.getShardPath id1) (h2 : q ≠ sm.getShardDir id1 ++ "/.gitkeep") :
    (sm.writeMapping fs id1 m).lookup q = fs.lookup q := by
  simp only [ShardManager.writeMapping]
  rw [lookup_write_ne _ _ _ _ h1, lookup_write_ne _ _ _ _ h2]

theorem write_files_nodupkeys (fs : Fs) (p : String) (c : FileContent)
    (h : (fs.files.map Prod.fst).Nodup) :
    (((fs.write p c).files).map Prod.fst).Nodup := by
  simp only [Fs.write, List.map_cons, List.nodup_cons]
  constructor
  · intro hmem
    obtain ⟨e, he, hfst⟩ := List.mem_map.mp hmem
    have := List.of_mem_filter he
    simp [hfst] at this
  · exact ((List.filter_sublist fs.files).map Prod.fst).nodup h

theorem emptyFs_nodupkeys : ((emptyFs.files).map Prod.fst).Nodup := by
  simp [emptyFs]

/-! ## Index construction (C7): writeAll characterisation -/

theorem writeAll_cons (sm : ShardManager) (a : UserMapping) (tl : List UserMapping)
    (fs : Fs) :
    writeAll sm (a :: tl) fs = writeAll sm tl (sm.writeMapping fs a.bilibiliUid a) := rfl

theorem writeAll_lookup_untouched (sm : ShardManager) (ms : List UserMapping)
    (fs : Fs) (q : String)
    (hgk : ∀ id2, q ≠ sm.getShardDir id2 ++ "/.gitkeep")
    (hp : ∀ m' ∈ ms, q ≠ sm.getShardPath m'.bilibiliUid) :
    (writeAll sm ms fs).lookup q = fs.lookup q := by
  induction ms generalizing fs with
  | nil => rfl
  | cons a tl ih =>
    rw [writeAll_cons, ih _ (fun m' hm' => hp m' (List.mem_cons_of_mem a hm')),
      lookup_writeMapping_ne sm fs a.bilibiliUid a q
        (hp a (List.mem_cons_self a tl)) (hgk a.bilibiliUid)]

theorem writeAll_lookup_mem (sm : ShardManager) (ms : List UserMapping) (fs : Fs)
    (hpaths : (ms.map (fun m => sm.getShardPath m.bilibiliUid)).Nodup)
    (m : UserMapping) (hm : m ∈ ms) :
    (writeAll sm ms fs).lookup (sm.getShardPath m.bilibiliUid) =
      some (.record m) := by
  induction ms generalizing fs with
  | nil => cases hm
  | cons a tl ih =>
    rw [writeAll_cons]
    rcases List.mem_cons.mp hm with heq | hmem
    · subst heq
      rw [List.map_cons, List.nodup_cons] at hpaths
      have hnt : ∀ m' ∈ tl, sm.getShardPath m.bilibiliUid ≠ sm.getShardPath m'.bilibiliUid := by
        intro m' hm' hq
        apply hpaths.1
        rw [hq]
        exact List.mem_map_of_mem _ hm'
      rw [writeAll_lookup_untouched sm tl _ _
        (fun id2 => shardPath_ne_gitkeep sm m.bilibiliUid id2) hnt]
      exact lookup_write_self _ _ _
    · rw [List.map_cons, List.nodup_cons] at hpaths
      exact ih _ hpaths.2 hmem

theorem writeAll_files_mem (sm : ShardManager) (ms : List UserMapping) (fs : Fs)
    (e : String × FileContent) (he : e ∈ (writeAll sm ms fs).files) :
    e ∈ fs.files ∨
      (∃ m ∈ ms, e = (sm.getShardPath m.bilibiliUid, FileContent.record m)) ∨
      e.2 = FileContent.emptyFile := by
  induction ms generalizing fs with
  | nil => exact Or.inl he
  | cons a tl ih =>
    rw [writeAll_cons] at he
    rcases ih _ he with h1 | h2 | h3
    · -- the entry sits in the one-step-written file system
      simp only [ShardManager.writeMapping, Fs.write, List.mem_cons] at h1
      rcases h1 with h1a | h1b
      · exact Or.inr (Or.inl ⟨a, List.mem_cons_self a tl, h1a⟩)
      · have h1c := List.mem_of_mem_filter h1b
        rcases List.mem_cons.mp h1c with h1d | h1e
        · exact Or.inr (Or.inr (by rw [h1d]))
        · exact Or.inl (List.mem_of_mem_filter h1e)
    · obtain ⟨m, hm, hme⟩ := h2
      exact Or.inr (Or.inl ⟨m, List.mem_cons_of_mem a hm, hme⟩)
    · exact Or.inr (Or.inr h3)

theorem writeAll_nodupkeys (sm : ShardManager) (ms : List UserMapping) (fs : Fs)
    (h : (fs.files.map Prod.fst).Nodup) :
    (((writeAll sm ms fs).files).map Prod.fst).Nodup := by
  induction ms generalizing fs with
  | nil => exact h
  | cons a tl ih =>
    rw [writeAll_cons]
    exact ih _ (write_files_nodupkeys _ _ _ (write_files_nodupkeys _ _ _ h))

/-! ## Index construction (C7): the scan as a flat list of insertions -/

/-- The key/value insertions `buildIndex` performs, in scan order: each
matching record file contributes its two identifier keys, both valued with
the file's path. -/
def scanOps (files : List (String × FileContent)) : List (String × String) :=
  files.flatMap (fun e =>
    if globJson e.1 && !(decide (e.1 = "index.json")) then
      match e.2 with
      | .record m => [(m.bilibiliUid, e.1), (m.youtubeChannelId, e.1)]
      | _ => []
    else [])

theorem foldl_scanOps (files : List (String × FileContent))
    (idx0 : MappingIndex) :
    files.foldl (fun idx e =>
      if globJson e.1 && !(decide (e.1 = "index.json")) then
        match e.2 with
        | .record m => idxInsert (idxInsert idx m.bilibiliUid e.1) m.youtubeChannelId e.1
        | _ => idx
      else idx) idx0 =
    (scanOps files).foldl (fun idx kv => idxInsert idx kv.1 kv.2) idx0 := by
  induction files generalizing idx0 with
  | nil => rfl
  | cons e t ih =>
    rw [List.foldl_cons, scanOps, List.flatMap_cons, List.foldl_append, ← scanOps]
    by_cases hcond : (globJson e.1 && !(decide (e.1 = "index.json"))) = true
    · rw [if_pos hcond, if_pos hcond]
      cases e.2 <;> exact ih _
    · rw [if_neg hcond, if_neg hcond]
      exact ih _

theorem buildIndex_eq (sm : ShardManager) (fs : Fs) :
    sm.buildIndex fs =
      (scanOps fs.files).foldl (fun idx kv => idxInsert idx kv.1 kv.2) [] :=
  foldl_scanOps fs.files []

theorem foldl_idxInsert_fresh (ops : List (String × String)) (idx0 : MappingIndex)
    (hn : (ops.map Prod.fst).Nodup)
    (hfresh : ∀ kv ∈ ops, ∀ e ∈ idx0, e.1 ≠ kv.1) :
    ops.foldl (fun idx kv => idxInsert idx kv.1 kv.2) idx0 = idx0 ++ ops := by
  induction ops generalizing idx0 with
  | nil => simp
  | cons kv t ih =>
    rw [List.foldl_cons]
    have hany : idx0.any (fun e => decide (e.1 = kv.1)) = false := by
      rw [List.any_eq_false]
      intro e he
      simpa using hfresh kv (List.mem_cons_self kv t) e he
    have hins : idxInsert idx0 kv.1 kv.2 = idx0 ++ [kv] := by
      rw [idxInsert, hany]
      simp
    rw [hins, ih (idx0 ++ [kv])]
    · simp
    · rw [List.map_cons, List.nodup_cons] at hn
      exact hn.2
    · intro kv' hkv' e he
      rcases List.mem_append.mp he with h1 | h2
      · exact hfresh kv' (List.mem_cons_of_mem kv hkv') e h1
      · rw [List.mem_singleton.mp h2]
        rw [List.map_cons, List.nodup_cons] at hn
        intro hkk
        exact hn.1 (hkk ▸ List.mem_map_of_mem Prod.fst hkv')

theorem idxLookup_of_nodup_mem (idx : MappingIndex)
    (hn : (idx.map Prod.fst).Nodup) (k v : String) (h : (k, v) ∈ idx) :
    idxLookup idx k = some v := by
  induction idx with
  | nil => cases h
  | cons e t ih =>
    rw [List.map_cons, List.nodup_cons] at hn
    rcases List.mem_cons.mp h with heq | hmem
    · rw [idxLookup, List.find?_cons, ← heq]
      simp
    · have hne : e.1 ≠ k := by
        intro hk
        exact hn.1 (hk ▸ List.mem_map_of_mem Prod.fst hmem)
      rw [idxLookup, List.find?_cons]
      have : (decide (e.1 = k)) = false := decide_eq_false hne
      rw [this]
      exact ih hn.2 hmem

theorem idxLookup_mem_keys (idx : MappingIndex) (k v : String)
    (h : idxLookup idx k = some v) : k ∈ idx.map Prod.fst := by
  rw [idxLookup] at h
  obtain ⟨e, he, hmap⟩ := Option.map_eq_some'.mp h
  have h1 := List.find?_some he
  have h2 := List.mem_of_find?_eq_some he
  rw [decide_eq_true_eq] at h1
  exact h1 ▸ List.mem_map_of_mem Prod.fst h2

theorem nodup_map_inj {α β : Type} {f : α → β} {l : List α}
    (h : (l.map f).Nodup) {a b : α} (ha : a ∈ l) (hb : b ∈ l) (hne : a ≠ b) :
    f a ≠ f b := by
  induction l with
  | nil => cases ha
  | cons x t ih =>
    rw [List.map_cons, List.nodup_cons] at h
    rcases List.mem_cons.mp ha with rfl | hat
    · rcases List.mem_cons.mp hb with rfl | hbt
      · exact absurd rfl hne
      · intro hf
        exact h.1 (hf ▸ List.mem_map_of_mem f hbt)
    · rcases List.mem_cons.mp hb with rfl | hbt
      · intro hf
        exact h.1 (hf ▸ List.mem_map_of_mem f hat)
      · exact ih h.2 hat hbt

theorem nodup_subset_length {l1 l2 : List String} (hn : l1.Nodup)
    (hsub : ∀ a ∈ l1, a ∈ l2) : l1.length ≤ l2.length := by
  calc l1.length = l1.toFinset.card := (List.toFinset_card_of_nodup hn).symm
    _ ≤ l2.toFinset.card := by
        apply Finset.card_le_card
        intro a ha
        rw [List.mem_toFinset] at ha ⊢
        exact hsub a ha
    _ ≤ l2.length := l2.toFinset_card_le

/-! ## Index construction (C7): per-entry scan facts -/

/-- The insertions contributed by a single scanned file. -/
def scanEntry (e : String × FileContent) : List (String × String) :=
  if globJson e.1 && !(decide (e.1 = "index.json")) then
    match e.2 with
    | .record m => [(m.bilibiliUid, e.1), (m.youtubeChannelId, e.1)]
    | _ => []
  else []

theorem scanOps_eq (files : List (String × FileContent)) :
    scanOps files = files.flatMap scanEntry := rfl

theorem scanEntry_record (p : String) (m : UserMapping)
    (hg : globJson p = true) (hi : p ≠ "index.json") :
    scanEntry (p, .record m) = [(m.bilibiliUid, p), (m.youtubeChannelId, p)] := by
  rw [scanEntry]
  have hcond : (globJson p && !(decide (p = "index.json"))) = true := by
    rw [hg, decide_eq_false hi]
    rfl
  rw [if_pos hcond]

theorem mem_scanEntry (e : String × FileContent) (kv : String × String)
    (h : kv ∈ scanEntry e) :
    ∃ m, e.2 = FileContent.record m ∧
      (kv = (m.bilibiliUid, e.1) ∨ kv = (m.youtubeChannelId, e.1)) := by
  obtain ⟨p, c⟩ := e
  rw [scanEntry] at h
  by_cases hcond : (globJson (p, c).1 && !(decide ((p, c).1 = "index.json"))) = true
  · rw [if_pos hcond] at h
    cases c with
    | record m =>
      refine ⟨m, rfl, ?_⟩
      simpa using h
    | emptyFile => simp at h
    | garbage => simp at h
  · rw [if_neg hcond] at h
    simp at h

theorem lookup_mem_files (fs : Fs) (p : String) (c : FileContent)
    (h : fs.lookup p = some c) : (p, c) ∈ fs.files := by
  rw [Fs.lookup] at h
  obtain ⟨e, he, h2⟩ := Option.map_eq_some'.mp h
  have h1 := List.find?_some he
  have hm := List.mem_of_find?_eq_some he
  rw [decide_eq_true_eq] at h1
  obtain ⟨a, b⟩ := e
  dsimp only at h1 h2
  rw [← h1, ← h2]
  exact hm

theorem lookup_ne_none_of_mem (fs : Fs) (e : String × FileContent)
    (he : e ∈ fs.files) : fs.lookup e.1 ≠ none := by
  rw [Fs.lookup]
  intro hcon
  rw [Option.map_eq_none'] at hcon
  rw [List.find?_eq_none] at hcon
  exact absurd (by simp) (hcon e he)

theorem scanEntry_of_emptyFile (e : String × FileContent)
    (h : e.2 = FileContent.emptyFile) : scanEntry e = [] := by
  obtain ⟨p, c⟩ := e
  dsimp only at h
  subst h
  rw [scanEntry]
  by_cases hc : (globJson (p, FileContent.emptyFile).1 &&
      !(decide ((p, FileContent.emptyFile).1 = "index.json"))) = true
  · rw [if_pos hc]
  · rw [if_neg hc]

theorem scan_keys_nodup (sm : ShardManager) (ms : List UserMapping)
    (hids : (ms.map (fun m => m.bilibiliUid) ++
      ms.map (fun m => m.youtubeChannelId)).Nodup) :
    ((scanOps (writeAll sm ms emptyFs).files).map Prod.fst).Nodup := by
  obtain ⟨hA, hB, hdisj⟩ := List.nodup_append.mp hids
  have hkeys : (((writeAll sm ms emptyFs).files).map Prod.fst).Nodup :=
    writeAll_nodupkeys sm ms emptyFs emptyFs_nodupkeys
  have hent := writeAll_files_mem sm ms emptyFs
  rw [scanOps_eq, List.map_flatMap, List.nodup_flatMap]
  constructor
  · intro e he2
    rcases hent e he2 with h0 | ⟨m, hm, hme⟩ | hemp
    · simp [emptyFs] at h0
    · rw [hme, scanEntry_record _ _ (globJson_shardPath sm _) (shardPath_ne_index sm _)]
      simp only [List.map_cons, List.map_nil]
      refine List.nodup_cons.mpr ⟨?_, List.nodup_singleton _⟩
      intro hmem2
      rw [List.mem_singleton] at hmem2
      exact hdisj (List.mem_map_of_mem _ hm) (hmem2 ▸ List.mem_map_of_mem _ hm)
    · rw [scanEntry_of_emptyFile e hemp]
      simp
  · have hpw : (writeAll sm ms emptyFs).files.Pairwise (fun e1 e2 => e1.1 ≠ e2.1) :=
      List.pairwise_map.mp hkeys
    refine hpw.imp_of_mem ?_
    intro e1 e2 h1 h2 hne
    intro a ha1 ha2
    obtain ⟨x1, hx1mem, hx1⟩ := List.mem_map.mp ha1
    obtain ⟨x2, hx2mem, hx2⟩ := List.mem_map.mp ha2
    obtain ⟨m1, hm1rec, hx1eq⟩ := mem_scanEntry _ _ hx1mem
    obtain ⟨m2, hm2rec, hx2eq⟩ := mem_scanEntry _ _ hx2mem
    rcases hent e1 h1 with h0 | ⟨m1', hm1', he1⟩ | hemp1
    · simp [emptyFs] at h0
    swap
    · rw [hm1rec] at hemp1
      cases hemp1
    rcases hent e2 h2 with h0 | ⟨m2', hm2', he2⟩ | hemp2
    · simp [emptyFs] at h0
    swap
    · rw [hm2rec] at hemp2
      cases hemp2
    rw [he1] at hm1rec
    rw [he2] at hm2rec
    simp only [FileContent.record.injEq] at hm1rec hm2rec
    subst hm1rec
    subst hm2rec
    have hp1 : e1.1 = sm.getShardPath m1'.bilibiliUid := by rw [he1]
    have hp2 : e2.1 = sm.getShardPath m2'.bilibiliUid := by rw [he2]
    have hm12 : m1' ≠ m2' := by
      intro hmm
      exact hne (by rw [hp1, hp2, hmm])
    have ha1v : a = m1'.bilibiliUid ∨ a = m1'.youtubeChannelId := by
      rcases hx1eq with hx | hx <;> rw [← hx1, hx] <;> simp
    have ha2v : a = m2'.bilibiliUid ∨ a = m2'.youtubeChannelId := by
      rcases hx2eq with hx | hx <;> rw [← hx2, hx] <;> simp
    rcases ha1v with hv1 | hv1 <;> rcases ha2v with hv2 | hv2
    · exact nodup_map_inj hA hm1' hm2' hm12 (hv1 ▸ hv2)
    · exact @hdisj a (by rw [hv1]; exact List.mem_map_of_mem _ hm1')
        (by rw [hv2]; exact List.mem_map_of_mem _ hm2')
    · exact @hdisj a (by rw [hv2]; exact List.mem_map_of_mem _ hm2')
        (by rw [hv1]; exact List.mem_map_of_mem _ hm1')
    · exact nodup_map_inj hB hm1' hm2' hm12 (hv1 ▸ hv2)

/-- C7 — confirmed (with the hash collaborator assumed collision-free on the
batch). After writing `N` mappings — pairwise distinct source and target
identifiers, and, since `hash` is the external truncated SHA-256 digest
(embedded as the abstract `hashHex`), pairwise distinct shard paths for the
`N` keys — `buildIndex` on the resulting store holds at least `2N` keys: for
every stored record one entry keyed by its Bilibili uid and one by its
YouTube channel id, both valued with the record's shard-relative path, and
every key maps to an existing file. -/
theorem claim_C7 (sm : ShardManager) (ms : List UserMapping)
    (hids : (ms.map (fun m => m.bilibiliUid) ++
      ms.map (fun m => m.youtubeChannelId)).Nodup)
    (hpaths : (ms.map (fun m => sm.getShardPath m.bilibiliUid)).Nodup) :
    2 * ms.length ≤ (sm.buildIndex (writeAll sm ms emptyFs)).length ∧
    (∀ m ∈ ms,
      idxLookup (sm.buildIndex (writeAll sm ms emptyFs)) m.bilibiliUid =
        some (sm.getShardPath m.bilibiliUid) ∧
      idxLookup (sm.buildIndex (writeAll sm ms emptyFs)) m.youtubeChannelId =
        some (sm.getShardPath m.bilibiliUid)) ∧
    (∀ kv ∈ sm.buildIndex (writeAll sm ms emptyFs),
      (writeAll sm ms emptyFs).lookup kv.2 ≠ none) := by
  have hrec : ∀ m ∈ ms, (sm.getShardPath m.bilibiliUid, FileContent.record m) ∈
      (writeAll sm ms emptyFs).files := fun m hm =>
    lookup_mem_files _ _ _ (writeAll_lookup_mem sm ms emptyFs hpaths m hm)
  have hops_mem : ∀ m ∈ ms,
      (m.bilibiliUid, sm.getShardPath m.bilibiliUid) ∈
        scanOps (writeAll sm ms emptyFs).files ∧
      (m.youtubeChannelId, sm.getShardPath m.bilibiliUid) ∈
        scanOps (writeAll sm ms emptyFs).files := by
    intro m hm
    have hse := scanEntry_record (sm.getShardPath m.bilibiliUid) m
      (globJson_shardPath sm _) (shardPath_ne_index sm _)
    rw [scanOps_eq]
    exact ⟨List.mem_flatMap.mpr ⟨_, hrec m hm, by rw [hse]; simp⟩,
      List.mem_flatMap.mpr ⟨_, hrec m hm, by rw [hse]; simp⟩⟩
  have hopkeys := scan_keys_nodup sm ms hids
  have hidx : sm.buildIndex (writeAll sm ms emptyFs) =
      scanOps (writeAll sm ms emptyFs).files := by
    rw [buildIndex_eq,
      foldl_idxInsert_fresh _ [] hopkeys (by intro kv _ e he; cases he)]
    rfl
  refine ⟨?_, ?_, ?_⟩
  · rw [hidx]
    have hsub : ∀ a ∈ (ms.map (fun m => m.bilibiliUid) ++
        ms.map (fun m => m.youtubeChannelId)),
        a ∈ (scanOps (writeAll sm ms emptyFs).files).map Prod.fst := by
      intro a ha
      rcases List.mem_append.mp ha with hA1 | hB1
      · obtain ⟨m, hm, hma⟩ := List.mem_map.mp hA1
        rw [← hma]
        exact List.mem_map_of_mem Prod.fst (hops_mem m hm).1
      · obtain ⟨m, hm, hma⟩ := List.mem_map.mp hB1
        rw [← hma]
        exact List.mem_map_of_mem Prod.fst (hops_mem m hm).2
    have hlen := nodup_subset_length hids hsub
    rw [List.length_append, List.length_map, List.length_map, List.length_map] at hlen
    omega
  · intro m hm
    rw [hidx]
    exact ⟨idxLookup_of_nodup_mem _ hopkeys _ _ (hops_mem m hm).1,
      idxLookup_of_nodup_mem _ hopkeys _ _ (hops_mem m hm).2⟩
  · intro kv hkv
    rw [hidx, scanOps_eq] at hkv
    obtain ⟨e, he, hkve⟩ := List.mem_flatMap.mp hkv
    obtain ⟨m, hrec2, hkveq⟩ := mem_scanEntry _ _ hkve
    have hkv2 : kv.2 = e.1 := by rcases hkveq with h | h <;> rw [h]
    rw [hkv2]
    exact lookup_ne_none_of_mem _ e he

/-- Fixture: a shard manager whose digest collaborator pads the id. -/
def wSm : ShardManager := ⟨defaultShardConfig, fun s => s ++ "00000000"⟩

/-- Fixture: two mappings with pairwise distinct identifiers. -/
def wM1 : UserMapping :=
  ⟨"aaaa", "n1", none, "UC111111", "t1", none, 1, "now", "auto", none⟩

/-- Fixture: second mapping. -/
def wM2 : UserMapping :=
  ⟨"bbbb", "n2", none, "UC222222", "t2", none, 1, "now", "auto", none⟩

/-- Fixture: the two-mapping batch. -/
def wMs : List UserMapping := [wM1, wM2]

/-- C7 — witness: writing two mappings with distinct identifiers and
distinct shard paths yields an index with at least four keys. -/
theorem claim_C7_witness :
    (wMs.map (fun m => m.bilibiliUid) ++
      wMs.map (fun m => m.youtubeChannelId)).Nodup ∧
    (wMs.map (fun m => wSm.getShardPath m.bilibiliUid)).Nodup ∧
    2 * wMs.length ≤ (wSm.buildIndex (writeAll wSm wMs emptyFs)).length :=
  ⟨by decide, by decide, (claim_C7 wSm wMs (by decide) (by decide)).1⟩

end BiliTube
